import Mathlib

/-!
Shallow embedding of the GitHub crawler (src/crawler.py) and proofs of the
spec claims. Pure functions of the source become Lean functions; the
database session becomes an explicit store state (a list of rows keyed by
primary id); wall-clock time becomes an explicit `Nat`/`Int` parameter;
transaction failure becomes an oracle saying which attempts raise.
-/

namespace Crawler

/-- A persisted row of the `repositories` table (src/models).
Fields mirror the columns used by `db_write_batch`: id is the primary
key; `updated_at` is the source-reported timestamp; `last_crawled_at`
is the local wall clock at commit time.  Timestamps are modelled as
naturals (seconds). -/
structure Repository where
  id : String
  name : String
  star_count : Int
  updated_at : Nat
  last_crawled_at : Nat
deriving DecidableEq, Repr

/-- One raw record of a fetch page, as handed to `db_write_batch`
(keys id, nameWithOwner, stargazerCount, updatedAt of the dict).
`updatedAt` is modelled already parsed to a natural timestamp. -/
structure RepoData where
  id : String
  nameWithOwner : String
  stargazerCount : Int
  updatedAt : Nat
deriving DecidableEq, Repr

/-- The store lookup `db.query(Repository).filter(Repository.id.in_(...))`
restricted to one id: the row whose primary key is `i`, if any.  The id
column is the primary key, so at most one row matches. -/
def lookupRepo (db : List Repository) (i : String) : Option Repository :=
  db.find? (fun e => e.id == i)

/-- The `Repository(...)` constructor call inside the loop of
`db_write_batch`: builds the row for one incoming record, stamping
`last_crawled_at` with the current time. -/
def mkRepo (now : Nat) (rd : RepoData) : Repository :=
  { id := rd.id
    name := rd.nameWithOwner
    star_count := rd.stargazerCount
    updated_at := rd.updatedAt
    last_crawled_at := now }

/-- The `to_update` list built by the loop of `db_write_batch`: records
whose id exists in the store with a differing star count, in batch order. -/
def toUpdateOf (db : List Repository) (batch : List RepoData) (now : Nat) :
    List Repository :=
  batch.filterMap (fun rd =>
    match lookupRepo db rd.id with
    | some e => if e.star_count = rd.stargazerCount then none else some (mkRepo now rd)
    | none => none)

/-- The `to_insert` list built by the loop of `db_write_batch`: records
whose id is absent from the store, in batch order. -/
def toInsertOf (db : List Repository) (batch : List RepoData) (now : Nat) :
    List Repository :=
  batch.filterMap (fun rd =>
    match lookupRepo db rd.id with
    | some _ => none
    | none => some (mkRepo now rd))

/-- `db.merge(repo)`: replace the row with the same primary key. -/
def mergeOne (db : List Repository) (u : Repository) : List Repository :=
  db.map (fun e => if e.id == u.id then u else e)

/-- The committed effect of one successful attempt of `db_write_batch`:
`bulk_save_objects(to_insert)` followed by `merge` of each queued
update, then `commit`. -/
def applyBatch (db : List Repository) (batch : List RepoData) (now : Nat) :
    List Repository :=
  (toUpdateOf db batch now).foldl mergeOne (db ++ toInsertOf db batch now)

/-- Result of `db_write_batch`: the store state after the call, the
boolean the function returns, and how many transactions were opened
(`db = next(get_db())` at the top of each loop iteration). -/
structure WriteResult where
  db : List Repository
  ok : Bool
  attempts : Nat
deriving DecidableEq, Repr

/-- The retry loop `for retry_count in range(max_retries)` of
`db_write_batch`.  `failsAt i` says whether the body of attempt `i`
raises (the transaction then rolls back, leaving the store unchanged);
`nowAt i` is `datetime.utcnow()` read during attempt `i`; `fuel` is the
number of loop iterations left.  A raise on the last iteration returns
False, as does falling off the loop. -/
def dbWriteAttempts (failsAt : Nat → Bool) (nowAt : Nat → Nat)
    (db : List Repository) (batch : List RepoData) :
    Nat → Nat → WriteResult
  | _, 0 => ⟨db, false, 0⟩
  | i, fuel + 1 =>
    if failsAt i then
      ⟨(dbWriteAttempts failsAt nowAt db batch (i + 1) fuel).db,
       (dbWriteAttempts failsAt nowAt db batch (i + 1) fuel).ok,
       (dbWriteAttempts failsAt nowAt db batch (i + 1) fuel).attempts + 1⟩
    else
      ⟨applyBatch db batch (nowAt i), true, 1⟩

/-- `db_write_batch(repo_data_list, max_retries)`: an empty batch
returns True at once, opening no session; otherwise the batch is
attempted up to `max_retries` times, each failed attempt rolled back. -/
def db_write_batch (failsAt : Nat → Bool) (nowAt : Nat → Nat)
    (db : List Repository) (batch : List RepoData) (max_retries : Nat) :
    WriteResult :=
  if batch = [] then ⟨db, true, 0⟩
  else dbWriteAttempts failsAt nowAt db batch 0 max_retries

/-! ### Fetch client (`fetch_repositories`) -/

/-- The `rateLimit` block of a parsed GraphQL response. -/
structure RateLimit where
  limit : Int
  cost : Int
  remaining : Int
  resetAt : String
deriving DecidableEq, Repr

/-- A fetch response after HTTP and JSON decoding, i.e. the data
`fetch_repositories` inspects: the HTTP status code, whether the body
carries a GraphQL `errors` key, the rate-limit block, and the search
page (records, pageInfo). -/
structure ParsedResponse where
  status : Nat
  hasErrors : Bool
  rateLimit : RateLimit
  repositories : List RepoData
  hasNextPage : Bool
  endCursor : String
deriving DecidableEq, Repr

/-- What `fetch_repositories` does with a response: raise the
rate-limit exception (its message is
`"Rate limit nearly exceeded. Resets at {resetAt}"`, here modelled as
a tagged value carrying the resetAt string), return None (GraphQL
errors or a non-200 status), or return the page dictionary. -/
inductive FetchOutcome where
  | raisedRateLimit (resetAt : String)
  | returnedNone
  | page (repos : List RepoData) (hasNextPage : Bool) (endCursor : String)
deriving DecidableEq, Repr

/-- The response handling of `fetch_repositories` (crawler.py lines
209-249): on status 200, GraphQL errors return None; otherwise the
near-exhaustion check `remaining < cost * 2` raises the rate-limit
exception carrying resetAt; otherwise the page is returned.  A non-200
status returns None. -/
def fetch_repositories (resp : ParsedResponse) : FetchOutcome :=
  if resp.status = 200 then
    if resp.hasErrors then .returnedNone
    else if resp.rateLimit.remaining < resp.rateLimit.cost * 2 then
      .raisedRateLimit resp.rateLimit.resetAt
    else .page resp.repositories resp.hasNextPage resp.endCursor
  else .returnedNone

/-! ### Rate-limit wait (`wait_for_rate_limit_reset`) -/

/-- How many seconds `wait_for_rate_limit_reset(reset_at)` sleeps when
the wall clock reads `now`: the positive part of `reset_at - now`,
plus a 1-second buffer; nothing when the reset time has passed.
Times are absolute seconds. -/
def wait_for_rate_limit_reset (resetAt now : Int) : Int :=
  if resetAt - now > 0 then (resetAt - now) + 1 else 0

/-! ### Worker retry loop (`crawl_worker`, inner `while retry_count <
max_retries` loop) -/

/-- The per-worker loop variables the retry loop reads and writes:
the consecutive-failure counter `retry_count` and the pagination
cursor `after_cursor`. -/
structure RetryState where
  retry_count : Nat
  after_cursor : Option String
deriving DecidableEq, Repr

/-- What happened during one iteration of the retry loop body:
a fetch that returned a page together with the boolean
`db_write_batch` returned for it, the rate-limit exception (with its
parsed resetAt, as recovered from the message by
`error_msg.split("Resets at ")[-1]`), or any other exception
(transport failure, GraphQL errors — both surface as the
`"Failed to fetch repositories"` raise — or another API error). -/
inductive WorkerEvent where
  | fetchOk (repos : List RepoData) (hasNextPage : Bool) (endCursor : String) (dbOk : Bool)
  | rateLimitHit (resetAt : Int)
  | apiError
deriving DecidableEq, Repr

/-- Where one iteration of the retry loop body leaves the worker. -/
inductive StepOutcome where
  /-- Control returns to the top of the retry loop after sleeping
  `sleptSeconds`: the next fetch uses `s.after_cursor`. -/
  | continueFetch (s : RetryState) (sleptSeconds : Int)
  /-- A page was written and `has_next_page` was true: counters were
  bumped by `numFetched` and the loop continues from `s`. -/
  | pageWritten (s : RetryState) (numFetched : Nat)
  /-- A page was written and `has_next_page` was false: the partition
  is exhausted (`flag_no_more_page = True; break`). -/
  | noMorePages (s : RetryState) (numFetched : Nat)
  /-- `retry_count` reached `max_retries`: the partition is abandoned
  (`flag_no_more_page = True; break`). -/
  | abandonPartition
deriving DecidableEq, Repr

/-- One iteration of the retry loop body of `crawl_worker` (crawler.py
lines 375-458) given the event of that iteration and the wall clock
`now`.  A failed `db_write_batch` hits `continue` (no state change, no
sleep); a successful write advances the cursor only when a next page
exists; the rate-limit exception sleeps via
`wait_for_rate_limit_reset` and hits `continue` without touching
`retry_count`; any other error increments `retry_count`, abandoning
the partition at `max_retries` and otherwise sleeping 2 seconds. -/
def workerStep (now : Int) (max_retries : Nat) (s : RetryState)
    (ev : WorkerEvent) : StepOutcome :=
  match ev with
  | .fetchOk repos hasNext endC dbOk =>
    if dbOk = false then .continueFetch s 0
    else if hasNext then .pageWritten ⟨s.retry_count, some endC⟩ repos.length
    else .noMorePages s repos.length
  | .rateLimitHit resetAt => .continueFetch s (wait_for_rate_limit_reset resetAt now)
  | .apiError =>
    if s.retry_count + 1 ≥ max_retries then .abandonPartition
    else .continueFetch ⟨s.retry_count + 1, s.after_cursor⟩ 2

/-! ### Token manager (`TokenManager`) -/

/-- `TokenManager`: an ordered token list and a cursor.  The lock only
serializes access; the sequential semantics is this pure state. -/
structure TokenManager where
  tokens : List String
  current_index : Nat
deriving DecidableEq, Repr

/-- `TokenManager.__init__` for a list of tokens. -/
def TokenManager.init (tokens : List String) : TokenManager :=
  { tokens := tokens, current_index := 0 }

/-- `get_token`: return the token at the cursor, advance the cursor
modulo the list length. -/
def get_token (tm : TokenManager) : String × TokenManager :=
  (tm.tokens.getD tm.current_index "",
   { tm with current_index := (tm.current_index + 1) % tm.tokens.length })

/-- The manager state after `k` calls to `get_token`. -/
def managerAfter (tm : TokenManager) : Nat → TokenManager
  | 0 => tm
  | k + 1 => (get_token (managerAfter tm k)).2

/-- The token returned by call number `k + 1` (0-indexed `k`). -/
def nthToken (tm : TokenManager) (k : Nat) : String :=
  (get_token (managerAfter tm k)).1

/-! ### Query builder (`build_search_query`) -/

/-- Python truthiness of an optional string argument: `None` and `""`
are falsy. -/
def presentStr : Option String → Option String
  | none => none
  | some s => if s = "" then none else some s

/-- `sort_mapping.get(sort_by, "stars")`: the four known sort keys map
to themselves, anything else defaults to `"stars"`. -/
def sortMapping (s : String) : String :=
  if s = "stars" then "stars"
  else if s = "updated" then "updated"
  else if s = "created" then "created"
  else if s = "forks" then "forks"
  else "stars"

/-- `if keywords: query_parts.extend(keywords)`: the keyword terms,
nothing when the argument is falsy (None or the empty list). -/
def keywordTerms (keywords : Option (List String)) : List String :=
  match keywords with
  | some ks => if ks = [] then [] else ks
  | none => []

/-- `if language: query_parts.append(f"language:{language}")`. -/
def languageClause (language : Option String) : List String :=
  match presentStr language with
  | some l => ["language:" ++ l]
  | none => []

/-- `if min_stars: query_parts.append(f"stars:>={min_stars}")`: zero
is falsy, so no clause is appended for it. -/
def starsClause (min_stars : Int) : List String :=
  if min_stars = 0 then [] else ["stars:>=" ++ toString min_stars]

/-- The creation-date filter of `build_search_query`: the range form
with both bounds truthy, the `>`/`<` forms with one, nothing with
neither. -/
def dateClause (created_after created_before : Option String) : List String :=
  match presentStr created_after, presentStr created_before with
  | some a, some b => ["created:" ++ a ++ ".." ++ b]
  | some a, none => ["created:>" ++ a]
  | none, some b => ["created:<" ++ b]
  | none, none => []

/-- `if sort_by and sort_by.lower() != 'none':
query_parts.append(f"sort:{sort_term}")` with `sort_term` looked up in
`sort_mapping` defaulting to `"stars"`. -/
def sortClause (sort_by : Option String) : List String :=
  match presentStr sort_by with
  | some s => if s.toLower = "none" then [] else ["sort:" ++ sortMapping s]
  | none => []

/-- The `query_parts` list assembled by `build_search_query`
(crawler.py lines 114-145), in append order. -/
def queryParts (min_stars : Int) (language : Option String)
    (created_after created_before : Option String)
    (keywords : Option (List String)) (sort_by : Option String) :
    List String :=
  keywordTerms keywords ++ languageClause language ++ starsClause min_stars ++
    dateClause created_after created_before ++ sortClause sort_by

/-- `build_search_query`: space-join of the assembled parts. -/
def build_search_query (min_stars : Int) (language : Option String)
    (created_after created_before : Option String)
    (keywords : Option (List String)) (sort_by : Option String) : String :=
  " ".intercalate
    (queryParts min_stars language created_after created_before keywords sort_by)

/-- Modelled from the spec (§4.1, C6): the keyword terms the query
must contain — the given keywords, nothing when the filter is absent. -/
def specKeywordTerms (keywords : Option (List String)) : List String :=
  keywords.getD []

/-- Modelled from the spec: the clauses of the query in the spec's
fixed order — keyword terms, then `language:<lang>`, then
`stars:>=<n>` (a zero minimum counts as an absent filter), then the
date clause shaped by which bounds are present, then `sort:<field>`
when a sort key other than "none" is given; clauses of absent filters
are omitted. -/
def specQueryClauses (min_stars : Int) (language : Option String)
    (created_after created_before : Option String)
    (keywords : Option (List String)) (sort_by : Option String) :
    List String :=
  specKeywordTerms keywords ++ languageClause language ++
    starsClause min_stars ++ dateClause created_after created_before ++
    sortClause sort_by

/-! ### Date partition scheduler (`get_month_date_range`,
`get_next_date_range`) -/

/-- Modelled from the external Python stdlib: `calendar.isleap(y)`,
the Gregorian leap-year rule used by `calendar.monthrange`. -/
def isLeapYear (y : Nat) : Bool :=
  y % 4 = 0 && (y % 100 ≠ 0 || y % 400 = 0)

/-- Modelled from the external Python stdlib: the second component of
`calendar.monthrange(y, m)`, the number of days of month `m` of year
`y`. -/
def daysInMonth (y m : Nat) : Nat :=
  if m = 2 then (if isLeapYear y then 29 else 28)
  else if m = 4 ∨ m = 6 ∨ m = 9 ∨ m = 11 then 30
  else 31

/-- The zero-padded two-digit rendering `f"{n:02d}"` for the month and
day fields (their values here never exceed two digits). -/
def pad2 (n : Nat) : String :=
  if n < 10 then "0" ++ toString n else toString n

/-- The date strings `f"{year}-{month:02d}-{day:02d}"` built by
`get_month_date_range`. -/
def fmtDate (year month day : Nat) : String :=
  toString year ++ "-" ++ pad2 month ++ "-" ++ pad2 day

/-- `get_month_date_range(year, month)`: the first and last calendar
day of the month, formatted. -/
def get_month_date_range (year month : Nat) : String × String :=
  (fmtDate year month 1, fmtDate year month (daysInMonth year month))

/-- `get_next_date_range(year, month)`: the previous calendar month.
The month is an integer in the source as well; the year may go
negative in principle, so both are `Int`. -/
def get_next_date_range (year month : Int) : Int × Int :=
  if month = 1 then (year - 1, 12) else (year, month - 1)

/-! ### Concrete sample data used by the witnesses -/

/-- A parsed response whose rate limit is nearly exhausted
(remaining 5, cost 3). -/
def respNear : ParsedResponse :=
  { status := 200
    hasErrors := false
    rateLimit := { limit := 5000, cost := 3, remaining := 5,
                   resetAt := "2024-03-20T10:00:00Z" }
    repositories := []
    hasNextPage := false
    endCursor := "c0" }

/-- A parsed response with comfortable rate-limit headroom
(remaining 10, cost 3). -/
def respFar : ParsedResponse :=
  { respNear with
    rateLimit := { limit := 5000, cost := 3, remaining := 10,
                   resetAt := "2024-03-20T10:00:00Z" } }

/-- A sample store: two rows, ids id1 (50 stars) and id2 (7 stars). -/
def dbW : List Repository :=
  [⟨"id1", "a/one", 50, 10, 5⟩, ⟨"id2", "b/two", 7, 12, 5⟩]

/-- A record whose id is absent from `dbW`. -/
def rIns : RepoData := ⟨"id3", "c/three", 1, 3⟩

/-- A record present in `dbW` with a changed star count. -/
def rUpd : RepoData := ⟨"id1", "a/one", 75, 11⟩

/-- A record present in `dbW` with an unchanged star count. -/
def rSkip : RepoData := ⟨"id2", "b/two", 7, 13⟩

/-- A sample batch exercising insert, update and skip at once. -/
def batchW : List RepoData := [rIns, rUpd, rSkip]

/-! ## Theorems -/

/-- The `TokenManager` state after any number of calls keeps the token
list and holds the call count modulo the list length as its cursor. -/
lemma managerAfter_spec (ts : List String) (k : Nat) :
    managerAfter (TokenManager.init ts) k = ⟨ts, k % ts.length⟩ := by
  induction k with
  | zero => simp [managerAfter, TokenManager.init]
  | succ k ih =>
    simp only [managerAfter, ih, get_token]
    simp [Nat.mod_add_mod]

/-- C5: for a token cycler over an ordered list of `N` tokens, the
first `N` calls to `get_token` return each token exactly once in list
order (call `k` yields token `k`), call `N + 1` returns the first
token again, and the selection is cyclic with period `N`. -/
theorem C5_token_cycler (ts : List String) (N : Nat)
    (hN : ts.length = N) (_hpos : 0 < N) :
    (∀ k, k < N → nthToken (TokenManager.init ts) k = ts.getD k "") ∧
    nthToken (TokenManager.init ts) N = ts.getD 0 "" ∧
    (∀ k, nthToken (TokenManager.init ts) (k + N) =
      nthToken (TokenManager.init ts) k) := by
  have hval : ∀ k, nthToken (TokenManager.init ts) k = ts.getD (k % ts.length) "" := by
    intro k
    rw [nthToken, managerAfter_spec ts k, get_token]
  refine ⟨?_, ?_, ?_⟩
  · intro k hk
    rw [hval k, hN, Nat.mod_eq_of_lt hk]
  · rw [hval N, hN, Nat.mod_self]
  · intro k
    rw [hval (k + N), hval k, hN, Nat.add_mod_right]

/-- Witness for C5 with the three tokens of the repository's test:
calls 1, 3 and 4 return token1, token3 and token1 again. -/
theorem C5_witness :
    nthToken (TokenManager.init ["token1", "token2", "token3"]) 0 = "token1" ∧
    nthToken (TokenManager.init ["token1", "token2", "token3"]) 2 = "token3" ∧
    nthToken (TokenManager.init ["token1", "token2", "token3"]) 3 = "token1" := by
  have h := C5_token_cycler ["token1", "token2", "token3"] 3 rfl (by norm_num)
  exact ⟨(h.1 0 (by norm_num)).trans rfl, (h.1 2 (by norm_num)).trans rfl,
    h.2.1.trans rfl⟩

/-- C7: the scheduler's advance returns the previous calendar month —
the month stays in [1,12], the linearized month index drops by exactly
one, and the year decrements exactly for January. -/
theorem C7_advance_previous_month (year month : Int)
    (h1 : 1 ≤ month) (h2 : month ≤ 12) :
    1 ≤ (get_next_date_range year month).2 ∧
    (get_next_date_range year month).2 ≤ 12 ∧
    12 * (get_next_date_range year month).1 + (get_next_date_range year month).2 =
      12 * year + month - 1 ∧
    (month = 1 → get_next_date_range year month = (year - 1, 12)) ∧
    (month ≠ 1 → get_next_date_range year month = (year, month - 1)) := by
  by_cases h : month = 1
  · subst h
    have he : get_next_date_range year 1 = (year - 1, 12) := by
      simp [get_next_date_range]
    rw [he]
    exact ⟨by norm_num, by norm_num, by push_cast; ring, fun _ => rfl,
      fun hc => absurd rfl hc⟩
  · have he : get_next_date_range year month = (year, month - 1) := by
      simp [get_next_date_range, h]
    rw [he]
    exact ⟨by omega, by omega, by omega, fun hc => absurd hc h, fun _ => rfl⟩

/-- Witness for C7: advance(2024, 1) = (2023, 12) and
advance(2024, 6) = (2024, 5). -/
theorem C7_witness :
    get_next_date_range 2024 1 = (2023, 12) ∧
    get_next_date_range 2024 6 = (2024, 5) := by
  have ha := (C7_advance_previous_month 2024 1 (by norm_num) (by norm_num)).2.2.2.1 rfl
  have hb := (C7_advance_previous_month 2024 6 (by norm_num) (by norm_num)).2.2.2.2
    (by norm_num)
  exact ⟨ha.trans (by norm_num), hb.trans (by norm_num)⟩

/-- `isLeapYear` decides the Gregorian leap-year predicate. -/
lemma isLeapYear_iff (y : Nat) :
    isLeapYear y = true ↔ (y % 4 = 0 ∧ (y % 100 ≠ 0 ∨ y % 400 = 0)) := by
  simp [isLeapYear]

/-- C8: `get_month_date_range` returns the first calendar day of the
month as its start and the last as its end — 29 or 28 for February by
the Gregorian leap rule, 30 for April, June, September and November,
31 for the rest — and the last day is a valid day number. -/
theorem C8_month_range (year month : Nat) (h1 : 1 ≤ month) (h2 : month ≤ 12) :
    get_month_date_range year month =
      (fmtDate year month 1, fmtDate year month (daysInMonth year month)) ∧
    (month = 2 →
      daysInMonth year month =
        if year % 4 = 0 ∧ (year % 100 ≠ 0 ∨ year % 400 = 0) then 29 else 28) ∧
    (month = 4 ∨ month = 6 ∨ month = 9 ∨ month = 11 →
      daysInMonth year month = 30) ∧
    (month = 1 ∨ month = 3 ∨ month = 5 ∨ month = 7 ∨ month = 8 ∨
      month = 10 ∨ month = 12 → daysInMonth year month = 31) ∧
    1 ≤ daysInMonth year month := by
  refine ⟨rfl, ?_, ?_, ?_, ?_⟩
  · intro hm
    subst hm
    by_cases hl : year % 4 = 0 ∧ (year % 100 ≠ 0 ∨ year % 400 = 0)
    · rw [if_pos hl]
      have hb : isLeapYear year = true := (isLeapYear_iff year).2 hl
      simp [daysInMonth, hb]
    · rw [if_neg hl]
      have hb : isLeapYear year = false := by
        rcases Bool.eq_false_or_eq_true (isLeapYear year) with h | h
        · exact absurd ((isLeapYear_iff year).1 h) hl
        · exact h
      simp [daysInMonth, hb]
  · rintro (hm | hm | hm | hm) <;> subst hm <;> simp [daysInMonth]
  · rintro (hm | hm | hm | hm | hm | hm | hm) <;> subst hm <;> simp [daysInMonth]
  · rw [daysInMonth]
    split_ifs <;> norm_num

/-- Witness for C8: February 2024 (leap) ends on day 29, February 2023
on day 28, and the 2024 range renders as the expected date strings. -/
theorem C8_witness :
    daysInMonth 2024 2 = 29 ∧ daysInMonth 2023 2 = 28 ∧
    get_month_date_range 2024 2 = ("2024-02-01", "2024-02-29") := by
  have h24 := C8_month_range 2024 2 (by norm_num) (by norm_num)
  have h23 := C8_month_range 2023 2 (by norm_num) (by norm_num)
  refine ⟨(h24.2.1 rfl).trans (by norm_num), (h23.2.1 rfl).trans (by norm_num), ?_⟩
  exact h24.1.trans (by decide)

/-- C3: for every successfully parsed response (HTTP 200, no GraphQL
errors), `fetch_repositories` raises the rate-limit exception carrying
the response's resetAt exactly when `remaining < cost * 2`; that
outcome is distinct from the generic None return. -/
theorem C3_rate_limit_predicate (resp : ParsedResponse)
    (hs : resp.status = 200) (he : resp.hasErrors = false) :
    (fetch_repositories resp =
        .raisedRateLimit resp.rateLimit.resetAt ↔
      resp.rateLimit.remaining < resp.rateLimit.cost * 2) ∧
    (∀ ra : String,
      (FetchOutcome.raisedRateLimit ra : FetchOutcome) ≠ .returnedNone) := by
  constructor
  · rw [fetch_repositories, if_pos hs, if_neg (by simp [he])]
    by_cases hlt : resp.rateLimit.remaining < resp.rateLimit.cost * 2
    · simp [hlt]
    · simp [hlt]
  · intro ra h
    exact FetchOutcome.noConfusion h

/-- Witness for C3: remaining 5, cost 3 raises the rate-limit error
(5 < 6); remaining 10, cost 3 does not (10 is not below 6). -/
theorem C3_witness :
    fetch_repositories respNear = .raisedRateLimit "2024-03-20T10:00:00Z" ∧
    fetch_repositories respFar ≠ .raisedRateLimit respFar.rateLimit.resetAt := by
  constructor
  · exact (C3_rate_limit_predicate respNear rfl rfl).1.mpr (by norm_num [respNear])
  · intro h
    have hc := (C3_rate_limit_predicate respFar rfl rfl).1.mp h
    norm_num [respFar, respNear] at hc

/-- C4: the worker reacts to the rate-limit exception by sleeping via
`wait_for_rate_limit_reset` and going straight back to fetching with
an unchanged state — same failure counter, same pagination cursor.
When the reset lies in the future the sleep ends exactly at
`resetAt + 1` (the one-second buffer); a past reset sleeps nothing. -/
theorem C4_rate_limit_sleep (now : Int) (max_retries : Nat)
    (s : RetryState) (resetAt : Int) :
    workerStep now max_retries s (.rateLimitHit resetAt) =
      .continueFetch s (wait_for_rate_limit_reset resetAt now) ∧
    (now < resetAt →
      now + wait_for_rate_limit_reset resetAt now = resetAt + 1) ∧
    (resetAt ≤ now → wait_for_rate_limit_reset resetAt now = 0) := by
  refine ⟨rfl, ?_, ?_⟩
  · intro h
    rw [wait_for_rate_limit_reset, if_pos (by omega)]
    omega
  · intro h
    rw [wait_for_rate_limit_reset, if_neg (by omega)]

/-- Witness for C4: at clock 100 with reset 200, the worker keeps its
counter and cursor and wakes at 201. -/
theorem C4_witness :
    workerStep 100 3 ⟨0, none⟩ (.rateLimitHit 200) =
      .continueFetch ⟨0, none⟩ (wait_for_rate_limit_reset 200 100) ∧
    (100 : Int) + wait_for_rate_limit_reset 200 100 = 201 := by
  have h := C4_rate_limit_sleep 100 3 ⟨0, none⟩ 200
  exact ⟨h.1, (h.2.1 (by norm_num)).trans (by norm_num)⟩

/-- C9: `db_write_batch` on an empty batch returns success at once
with the store untouched and zero transactions opened, for every
failure oracle, clock and retry bound. -/
theorem C9_empty_batch (failsAt : Nat → Bool) (nowAt : Nat → Nat)
    (db : List Repository) (max_retries : Nat) :
    db_write_batch failsAt nowAt db [] max_retries = ⟨db, true, 0⟩ := by
  simp [db_write_batch]

/-- Every failed run of the retry loop leaves the store as it was:
each attempt that raises is rolled back. -/
lemma dbWriteAttempts_rollback (failsAt : Nat → Bool) (nowAt : Nat → Nat)
    (db : List Repository) (batch : List RepoData) (fuel : Nat) :
    ∀ i, (dbWriteAttempts failsAt nowAt db batch i fuel).ok = false →
      (dbWriteAttempts failsAt nowAt db batch i fuel).db = db := by
  induction fuel with
  | zero => intro i _; rfl
  | succ k ih =>
    intro i hok
    by_cases hf : failsAt i = true
    · simp only [dbWriteAttempts, hf, if_true] at hok ⊢
      exact ih (i + 1) hok
    · rw [dbWriteAttempts, if_neg hf] at hok
      simp at hok

/-- When every attempt the loop can make raises, the loop runs all of
them and reports failure with the store unchanged. -/
lemma dbWriteAttempts_all_fail (failsAt : Nat → Bool) (nowAt : Nat → Nat)
    (db : List Repository) (batch : List RepoData) (fuel : Nat) :
    ∀ i, (∀ j, i ≤ j → j < i + fuel → failsAt j = true) →
      dbWriteAttempts failsAt nowAt db batch i fuel = ⟨db, false, fuel⟩ := by
  induction fuel with
  | zero => intro i _; rfl
  | succ k ih =>
    intro i hall
    have hf : failsAt i = true := hall i le_rfl (by omega)
    simp only [dbWriteAttempts, hf, if_true]
    rw [ih (i + 1) (fun j hj1 hj2 => hall j (by omega) (by omega))]

/-- A successful run of the retry loop committed the whole batch in
one attempt: the final store is the atomic application of the batch at
the clock of the succeeding attempt. -/
lemma dbWriteAttempts_success (failsAt : Nat → Bool) (nowAt : Nat → Nat)
    (db : List Repository) (batch : List RepoData) (fuel : Nat) :
    ∀ i, (dbWriteAttempts failsAt nowAt db batch i fuel).ok = true →
      ∃ j, i ≤ j ∧ j < i + fuel ∧ failsAt j = false ∧
        (dbWriteAttempts failsAt nowAt db batch i fuel).db =
          applyBatch db batch (nowAt j) := by
  induction fuel with
  | zero =>
    intro i h
    simp [dbWriteAttempts] at h
  | succ k ih =>
    intro i hok
    by_cases hf : failsAt i = true
    · simp only [dbWriteAttempts, hf, if_true] at hok ⊢
      obtain ⟨j, hj1, hj2, hj3, hj4⟩ := ih (i + 1) hok
      exact ⟨j, by omega, by omega, hj3, hj4⟩
    · have hf2 : failsAt i = false := by
        rcases Bool.eq_false_or_eq_true (failsAt i) with h | h
        · exact absurd h hf
        · exact h
      refine ⟨i, le_rfl, by omega, hf2, ?_⟩
      rw [dbWriteAttempts, if_neg hf]

/-- C2: `db_write_batch` is transactional per batch — a failed call
leaves the store exactly as it was; when every attempt fails the call
returns failure after exactly `max_retries` attempts; a successful
call leaves the store equal to the atomic application of the whole
batch (never a partial commit); and the caller reacts to a failure
return by continuing its loop with an unchanged state, so the same
cursor is fetched again. -/
theorem C2_transactional_batch_retry (failsAt : Nat → Bool) (nowAt : Nat → Nat)
    (db : List Repository) (batch : List RepoData) (max_retries : Nat)
    (repos : List RepoData) (hasNext : Bool) (endCursor : String)
    (s : RetryState) (now : Int) :
    ((db_write_batch failsAt nowAt db batch max_retries).ok = false →
      (db_write_batch failsAt nowAt db batch max_retries).db = db) ∧
    (batch ≠ [] → (∀ i, i < max_retries → failsAt i = true) →
      db_write_batch failsAt nowAt db batch max_retries =
        ⟨db, false, max_retries⟩) ∧
    ((db_write_batch failsAt nowAt db batch max_retries).ok = true →
      (db_write_batch failsAt nowAt db batch max_retries).db = db ∨
      ∃ j, j < max_retries ∧ failsAt j = false ∧
        (db_write_batch failsAt nowAt db batch max_retries).db =
          applyBatch db batch (nowAt j)) ∧
    workerStep now max_retries s (.fetchOk repos hasNext endCursor false) =
      .continueFetch s 0 := by
  refine ⟨?_, ?_, ?_, rfl⟩
  · intro hok
    by_cases hb : batch = []
    · subst hb
      simp [db_write_batch] at hok
    · rw [db_write_batch, if_neg hb] at hok ⊢
      exact dbWriteAttempts_rollback failsAt nowAt db batch max_retries 0 hok
  · intro hb hall
    rw [db_write_batch, if_neg hb]
    exact dbWriteAttempts_all_fail failsAt nowAt db batch max_retries 0
      (fun j _ hj2 => hall j (by omega))
  · intro hok
    by_cases hb : batch = []
    · subst hb
      left
      simp [db_write_batch]
    · rw [db_write_batch, if_neg hb] at hok ⊢
      right
      obtain ⟨j, _, hj2, hj3, hj4⟩ :=
        dbWriteAttempts_success failsAt nowAt db batch max_retries 0 hok
      exact ⟨j, by omega, hj3, hj4⟩

/-- Witness for C2: with an always-failing store and three retries,
the sample batch fails after exactly three rolled-back attempts and
the store is untouched. -/
theorem C2_witness :
    db_write_batch (fun _ => true) (fun _ => 0) dbW batchW 3 =
      ⟨dbW, false, 3⟩ :=
  (C2_transactional_batch_retry (fun _ => true) (fun _ => 0) dbW batchW 3
    [] false "c" ⟨0, none⟩ 0).2.1 (by decide) (fun _ _ => rfl)

/-- Merging an update whose id differs from `rid` does not touch the
rows with id `rid`. -/
lemma filter_mergeOne (db : List Repository) (u : Repository) (rid : String)
    (hu : u.id ≠ rid) :
    (mergeOne db u).filter (fun e => e.id == rid) =
      db.filter (fun e => e.id == rid) := by
  induction db with
  | nil => rfl
  | cons a as ih =>
    rw [mergeOne] at ih ⊢
    simp only [List.map_cons, List.filter_cons]
    by_cases ha : (a.id == u.id) = true
    · have hau : a.id = u.id := by simpa using ha
      rw [if_pos ha]
      have h1 : (u.id == rid) = false := by simpa using hu
      have h2 : (a.id == rid) = false := by simp [hau, hu]
      rw [h1, h2]
      exact ih
    · rw [if_neg ha]
      by_cases hr : (a.id == rid) = true
      · rw [hr]
        simpa using congrArg (a :: ·) ih
      · have hr2 : (a.id == rid) = false := by
          rcases Bool.eq_false_or_eq_true (a.id == rid) with h | h
          · exact absurd h hr
          · exact h
        rw [hr2]
        exact ih

/-- Folding merges whose ids all differ from `rid` does not touch the
rows with id `rid`. -/
lemma filter_foldl_mergeOne (us : List Repository) (rid : String)
    (hus : ∀ u ∈ us, u.id ≠ rid) :
    ∀ db, (us.foldl mergeOne db).filter (fun e => e.id == rid) =
      db.filter (fun e => e.id == rid) := by
  induction us with
  | nil => intro db; rfl
  | cons u us ih =>
    intro db
    rw [List.foldl_cons,
      ih (fun v hv => hus v (List.mem_cons_of_mem u hv)) (mergeOne db u)]
    exact filter_mergeOne db u rid (hus u (List.mem_cons_self u us))

/-- C1: for every batch and store, a record whose id is absent is
queued as an insert; one whose id is present with a differing star
count is queued as an update whose row carries the incoming star
count, the incoming source timestamp, and the current time as
`last_crawled_at`; one whose id is present with an unchanged star
count is queued in neither list, and the committed batch leaves every
row with that id — its `last_crawled_at` included — exactly as it
was. -/
theorem C1_upsert_diff (db : List Repository) (batch : List RepoData)
    (now : Nat) (r : RepoData) (hr : r ∈ batch) :
    (lookupRepo db r.id = none →
      (⟨r.id, r.nameWithOwner, r.stargazerCount, r.updatedAt, now⟩ :
        Repository) ∈ toInsertOf db batch now) ∧
    (∀ e, lookupRepo db r.id = some e → e.star_count ≠ r.stargazerCount →
      (⟨r.id, r.nameWithOwner, r.stargazerCount, r.updatedAt, now⟩ :
        Repository) ∈ toUpdateOf db batch now) ∧
    (∀ e, lookupRepo db r.id = some e → e.star_count = r.stargazerCount →
      (∀ rd, rd ∈ batch → rd.id = r.id →
        rd.stargazerCount = r.stargazerCount) →
      (∀ u, u ∈ toUpdateOf db batch now → u.id ≠ r.id) ∧
      (∀ v, v ∈ toInsertOf db batch now → v.id ≠ r.id) ∧
      (applyBatch db batch now).filter (fun e => e.id == r.id) =
        db.filter (fun e => e.id == r.id)) := by
  refine ⟨?_, ?_, ?_⟩
  · intro hnone
    rw [toInsertOf, List.mem_filterMap]
    refine ⟨r, hr, ?_⟩
    simp [hnone, mkRepo]
  · intro e hsome hne
    rw [toUpdateOf, List.mem_filterMap]
    refine ⟨r, hr, ?_⟩
    simp [hsome, hne, mkRepo]
  · intro e hsome hstar hdup
    have hupd : ∀ u, u ∈ toUpdateOf db batch now → u.id ≠ r.id := by
      intro u hu hid
      rw [toUpdateOf, List.mem_filterMap] at hu
      obtain ⟨rd, hrd, hfeq⟩ := hu
      rcases hlk : lookupRepo db rd.id with _ | e'
      · rw [hlk] at hfeq
        simp at hfeq
      · rw [hlk] at hfeq
        by_cases hst : e'.star_count = rd.stargazerCount
        · simp [hst] at hfeq
        · simp [hst] at hfeq
          have hrid : rd.id = r.id := by
            rw [← hfeq] at hid
            exact hid
          rw [hrid, hsome] at hlk
          injection hlk with he2
          apply hst
          rw [← he2, hstar, hdup rd hrd hrid]
    have hins : ∀ v, v ∈ toInsertOf db batch now → v.id ≠ r.id := by
      intro v hv hid
      rw [toInsertOf, List.mem_filterMap] at hv
      obtain ⟨rd, hrd, hfeq⟩ := hv
      rcases hlk : lookupRepo db rd.id with _ | e'
      · rw [hlk] at hfeq
        simp at hfeq
        have hrid : rd.id = r.id := by
          rw [← hfeq] at hid
          exact hid
        rw [hrid, hsome] at hlk
        exact Option.noConfusion hlk
      · rw [hlk] at hfeq
        simp at hfeq
    refine ⟨hupd, hins, ?_⟩
    rw [applyBatch, filter_foldl_mergeOne (toUpdateOf db batch now) r.id hupd,
      List.filter_append]
    have hnil : (toInsertOf db batch now).filter (fun e => e.id == r.id) = [] := by
      rw [List.filter_eq_nil_iff]
      intro v hv
      simpa using hins v hv
    rw [hnil, List.append_nil]

/-- Witness for C1 on the sample store and batch: the unknown id is
queued as an insert, the changed id as an update stamped with the
current clock 99, and the rows of the unchanged id survive the commit
untouched. -/
theorem C1_witness :
    (⟨"id3", "c/three", 1, 3, 99⟩ : Repository) ∈ toInsertOf dbW batchW 99 ∧
    (⟨"id1", "a/one", 75, 11, 99⟩ : Repository) ∈ toUpdateOf dbW batchW 99 ∧
    (applyBatch dbW batchW 99).filter (fun e => e.id == rSkip.id) =
      dbW.filter (fun e => e.id == rSkip.id) := by
  refine ⟨?_, ?_, ?_⟩
  · exact (C1_upsert_diff dbW batchW 99 rIns (by decide)).1 (by decide)
  · exact (C1_upsert_diff dbW batchW 99 rUpd (by decide)).2.1
      ⟨"id1", "a/one", 50, 10, 5⟩ (by decide) (by decide)
  · exact ((C1_upsert_diff dbW batchW 99 rSkip (by decide)).2.2
      ⟨"id2", "b/two", 7, 12, 5⟩ (by decide) (by decide) (by decide)).2.2

/-- The truthy-keywords chunk of the builder equals the spec's keyword
terms. -/
lemma keywordTerms_eq_spec (keywords : Option (List String)) :
    keywordTerms keywords = specKeywordTerms keywords := by
  cases keywords with
  | none => rfl
  | some ks =>
    by_cases h : ks = []
    · subst h; rfl
    · simp [keywordTerms, specKeywordTerms, h]

/-- C6: the query builder returns exactly the space-join of the
clauses the spec prescribes, in the spec's fixed order, omitting every
clause whose filter is absent. -/
theorem C6_query_builder (min_stars : Int) (language : Option String)
    (created_after created_before : Option String)
    (keywords : Option (List String)) (sort_by : Option String) :
    build_search_query min_stars language created_after created_before
        keywords sort_by =
      " ".intercalate (specQueryClauses min_stars language created_after
        created_before keywords sort_by) := by
  rw [build_search_query, queryParts, specQueryClauses, keywordTerms_eq_spec]

/-- A string whose first character is not `s` never equals
`"stars:>=0"`, whatever is appended to it. -/
lemma append_ne_stars0 (p x : String) (c : Char) (rest : List Char)
    (hp : p.data = c :: rest) (hc : c ≠ 's') : p ++ x ≠ "stars:>=0" := by
  intro h
  have hd := congrArg String.data h
  rw [String.data_append, hp, List.cons_append] at hd
  rw [show "stars:>=0".data = 's' :: "tars:>=0".data from rfl] at hd
  injection hd with h1 _
  exact hc h1

/-- A sort clause never equals `"stars:>=0"`: the second characters
differ. -/
lemma sort_clause_ne_stars0 (x : String) : "sort:" ++ x ≠ "stars:>=0" := by
  intro h
  have hd := congrArg String.data h
  rw [String.data_append] at hd
  rw [show "sort:".data = 's' :: 'o' :: "rt:".data from rfl, List.cons_append,
    List.cons_append] at hd
  rw [show "stars:>=0".data = 's' :: 't' :: "ars:>=0".data from rfl] at hd
  injection hd with _ h2
  injection h2 with h3 _
  exact absurd h3 (by decide)

/-- C10: with a zero minimum-stars criterion the builder assembles no
stars clause at all — the parts are exactly the other four sections —
and, provided no keyword term is the literal `"stars:>=0"`, that
string is not among the assembled parts. -/
theorem C10_zero_min_stars (language : Option String)
    (created_after created_before : Option String)
    (keywords : Option (List String)) (sort_by : Option String)
    (hk : "stars:>=0" ∉ specKeywordTerms keywords) :
    queryParts 0 language created_after created_before keywords sort_by =
      specKeywordTerms keywords ++ languageClause language ++
        dateClause created_after created_before ++ sortClause sort_by ∧
    "stars:>=0" ∉
      queryParts 0 language created_after created_before keywords sort_by := by
  have heq : queryParts 0 language created_after created_before keywords
      sort_by =
      specKeywordTerms keywords ++ languageClause language ++
        dateClause created_after created_before ++ sortClause sort_by := by
    rw [queryParts, keywordTerms_eq_spec, starsClause, if_pos rfl,
      List.append_nil]
  refine ⟨heq, ?_⟩
  rw [heq]
  intro hmem
  simp only [List.mem_append] at hmem
  rcases hmem with ((hm | hm) | hm) | hm
  · exact hk hm
  · rw [languageClause] at hm
    rcases hp : presentStr language with _ | l
    · rw [hp] at hm
      simp at hm
    · rw [hp] at hm
      exact append_ne_stars0 "language:" l 'l' _ rfl (by decide)
        (List.mem_singleton.1 hm).symm
  · rw [dateClause] at hm
    rcases ha : presentStr created_after with _ | a <;>
      rcases hb : presentStr created_before with _ | b <;>
        rw [ha, hb] at hm
    · simp at hm
    · exact append_ne_stars0 "created:<" b 'c' _ rfl (by decide)
        (List.mem_singleton.1 hm).symm
    · exact append_ne_stars0 "created:>" a 'c' _ rfl (by decide)
        (List.mem_singleton.1 hm).symm
    · have hp2 : ("created:" ++ a ++ "..").data =
          'c' :: (("reated:".data ++ a.data) ++ "..".data) := by
        simp only [String.data_append]
        rfl
      exact append_ne_stars0 ("created:" ++ a ++ "..") b 'c' _ hp2 (by decide)
        (List.mem_singleton.1 hm).symm
  · rw [sortClause] at hm
    rcases hs : presentStr sort_by with _ | s
    · rw [hs] at hm
      simp at hm
    · rw [hs] at hm
      by_cases hn : s.toLower = "none"
      · simp [hn] at hm
      · simp only [hn, if_false, List.mem_singleton] at hm
        exact sort_clause_ne_stars0 (sortMapping s) hm.symm

/-- Witness for C10: with language python, two keywords and no other
filters, a zero minimum emits no `stars:>=0` part. -/
theorem C10_witness :
    "stars:>=0" ∉ specKeywordTerms (some ["machine", "learning"]) ∧
    "stars:>=0" ∉
      queryParts 0 (some "python") none none (some ["machine", "learning"])
        none :=
  ⟨by decide,
   (C10_zero_min_stars (some "python") none none (some ["machine", "learning"])
     none (by decide)).2⟩

end Crawler
